import Mathlib

/-!
Shallow embedding of the onefuzz agent persistent-state layer:
`src/agent/onefuzz-agent/src/failure.rs` and
`src/agent/onefuzz-agent/src/reboot.rs`.

The filesystem (std/tokio `fs`) is modelled as an explicit `World` state:
an association list from paths to byte contents, together with injected
failure outcomes for read/write/remove/enumerate operations, so that the
error paths of the source can be exercised.  Errors mirror `anyhow`:
a base error optionally wrapped in `context` layers carrying messages.
-/

/-- Kinds of OS-level I/O errors (`std::io::ErrorKind`), reduced to the
cases the source distinguishes: `NotFound` versus everything else. -/
inductive ErrKind : Type
  | notFound
  | permissionDenied
  | other
deriving DecidableEq, Repr

/-- Model of `anyhow::Error`: a base cause (`ioErr` for `std::io::Error`,
`serde` for `serde_json::Error`, `config` for path-resolution failure,
`msg` for `anyhow::bail!`) optionally wrapped by `.with_context(...)`
layers carrying a message string. -/
inductive Err : Type
  | ioErr (k : ErrKind)
  | serde (s : String)
  | config
  | msg (s : String)
  | context (s : String) (cause : Err)
deriving DecidableEq, Repr

/-- Byte strings are lists of naturals (each intended `< 256`). -/
abbrev Bytes := List Nat

/-- The filesystem state plus injected failure outcomes.  `files` maps a
path to its byte contents.  `readFail p`, `writeFail p`, `removeFail p`
inject an OS error for the corresponding operation on path `p`
(`none` means the operation behaves normally).  `dirEntries d` is the
result of enumerating directory `d`: an overall failure, or a list of
per-entry results (each an entry path or a per-entry failure), matching
`std::fs::read_dir`. -/
structure World : Type where
  files : List (String × Bytes)
  readFail : String → Option ErrKind
  writeFail : String → Option ErrKind
  removeFail : String → Option ErrKind
  dirEntries : String → Except ErrKind (List (Except ErrKind String))

/-- Look up a path in an association list of files. -/
def lookupFile (l : List (String × Bytes)) (p : String) : Option Bytes :=
  (l.find? (fun e => e.1 = p)).map (·.2)

/-- Look up a path in the file map. -/
def World.lookup (w : World) (p : String) : Option Bytes :=
  lookupFile w.files p

/-- Replace (or insert) the contents of a path in an association list. -/
def setFile : List (String × Bytes) → String → Bytes → List (String × Bytes)
  | [], p, v => [(p, v)]
  | e :: rest, p, v =>
    if e.1 = p then (p, v) :: rest else e :: setFile rest p v

/-- Remove a path from an association list. -/
def delFile : List (String × Bytes) → String → List (String × Bytes)
  | [], _ => []
  | e :: rest, p => if e.1 = p then delFile rest p else e :: delFile rest p

/-- `fs::read`: injected failure if any, else the contents, else `NotFound`.
Reading never changes the state. -/
def fsRead (w : World) (p : String) : Except ErrKind Bytes :=
  match w.readFail p with
  | some k => .error k
  | none =>
    match w.lookup p with
    | some bs => .ok bs
    | none => .error .notFound

/-- `fs::write`: injected failure if any (state unchanged), else overwrite. -/
def fsWrite (w : World) (p : String) (data : Bytes) :
    Except ErrKind Unit × World :=
  match w.writeFail p with
  | some k => (.error k, w)
  | none => (.ok (), { w with files := setFile w.files p data })

/-- `fs::remove_file`: injected failure if any (state unchanged), else delete,
`NotFound` if the path does not exist. -/
def fsRemove (w : World) (p : String) : Except ErrKind Unit × World :=
  match w.removeFail p with
  | some k => (.error k, w)
  | none =>
    match w.lookup p with
    | some _ => (.ok (), { w with files := delFile w.files p })
    | none => (.error .notFound, w)

/-- Resolution of the agent's base directories.  Modelled from the spec:
`onefuzz::fs::onefuzz_root` and `onefuzz::fs::onefuzz_logs` (not part of
this repository's sources) resolve `StateRoot` and `LogRoot` from
environment/config and fail only on misconfiguration; `none` models that
failure. -/
structure Env : Type where
  root : Option String
  logs : Option String

/-- `Path::join` with a single file-name component. -/
def pathJoin (dir name : String) : String := dir ++ "/" ++ name

/-- `onefuzz::fs::onefuzz_root`, modelled from the spec: returns the
`StateRoot` directory or a configuration error. -/
def onefuzz_root (env : Env) : Except Err String :=
  match env.root with
  | some r => .ok r
  | none => .error .config

/-- `onefuzz::fs::onefuzz_logs`, modelled from the spec: returns the
`LogRoot` directory or a configuration error. -/
def onefuzz_logs (env : Env) : Except Err String :=
  match env.logs with
  | some r => .ok r
  | none => .error .config

/-! ### UTF-8: `String::from_utf8_lossy` and byte encoding of strings

Modelled from the spec: lossy UTF-8 decoding (Rust's `String::from_utf8_lossy`,
not part of this repository's sources) decodes valid sequences and replaces
each maximal invalid subpart with the Unicode replacement character U+FFFD. -/

/-- The Unicode replacement character U+FFFD, as a scalar value. -/
def replChar : Nat := 0xFFFD

/-- Lower bound of the second byte of a 3-byte sequence with lead `b0`. -/
def cont3Lo (b0 : Nat) : Nat := if b0 = 0xE0 then 0xA0 else 0x80

/-- Upper bound of the second byte of a 3-byte sequence with lead `b0`
(surrogates excluded when `b0 = 0xED`). -/
def cont3Hi (b0 : Nat) : Nat := if b0 = 0xED then 0x9F else 0xBF

/-- Lower bound of the second byte of a 4-byte sequence with lead `b0`. -/
def cont4Lo (b0 : Nat) : Nat := if b0 = 0xF0 then 0x90 else 0x80

/-- Upper bound of the second byte of a 4-byte sequence with lead `b0`
(scalar values above U+10FFFF excluded when `b0 = 0xF4`). -/
def cont4Hi (b0 : Nat) : Nat := if b0 = 0xF4 then 0x8F else 0xBF

/-- Decoding step, 2-byte sequence: lead `b0` in `C2..DF` consumed. -/
def utf8Step2 (b0 : Nat) : List Nat → Nat × List Nat
  | [] => (replChar, [])
  | b1 :: rest1 =>
    if 0x80 ≤ b1 ∧ b1 ≤ 0xBF then
      ((b0 - 0xC0) * 64 + (b1 - 0x80), rest1)
    else (replChar, b1 :: rest1)

/-- Decoding step, 3-byte sequence: lead `b0` and second byte `b1` consumed. -/
def utf8Step3b (b0 b1 : Nat) : List Nat → Nat × List Nat
  | [] => (replChar, [])
  | b2 :: rest2 =>
    if 0x80 ≤ b2 ∧ b2 ≤ 0xBF then
      ((b0 - 0xE0) * 4096 + (b1 - 0x80) * 64 + (b2 - 0x80), rest2)
    else (replChar, b2 :: rest2)

/-- Decoding step, 3-byte sequence: lead `b0` in `E0..EF` consumed. -/
def utf8Step3 (b0 : Nat) : List Nat → Nat × List Nat
  | [] => (replChar, [])
  | b1 :: rest1 =>
    if cont3Lo b0 ≤ b1 ∧ b1 ≤ cont3Hi b0 then utf8Step3b b0 b1 rest1
    else (replChar, b1 :: rest1)

/-- Decoding step, 4-byte sequence: `b0`, `b1`, `b2` consumed. -/
def utf8Step4c (b0 b1 b2 : Nat) : List Nat → Nat × List Nat
  | [] => (replChar, [])
  | b3 :: rest3 =>
    if 0x80 ≤ b3 ∧ b3 ≤ 0xBF then
      ((b0 - 0xF0) * 262144 + (b1 - 0x80) * 4096 + (b2 - 0x80) * 64 +
        (b3 - 0x80), rest3)
    else (replChar, b3 :: rest3)

/-- Decoding step, 4-byte sequence: `b0` and `b1` consumed. -/
def utf8Step4b (b0 b1 : Nat) : List Nat → Nat × List Nat
  | [] => (replChar, [])
  | b2 :: rest2 =>
    if 0x80 ≤ b2 ∧ b2 ≤ 0xBF then utf8Step4c b0 b1 b2 rest2
    else (replChar, b2 :: rest2)

/-- Decoding step, 4-byte sequence: lead `b0` in `F0..F4` consumed. -/
def utf8Step4 (b0 : Nat) : List Nat → Nat × List Nat
  | [] => (replChar, [])
  | b1 :: rest1 =>
    if cont4Lo b0 ≤ b1 ∧ b1 ≤ cont4Hi b0 then utf8Step4b b0 b1 rest1
    else (replChar, b1 :: rest1)

/-- One step of lossy UTF-8 decoding: given the first byte and the rest of
the input, return the decoded scalar value (U+FFFD for a maximal invalid
subpart) and the not-yet-consumed input. -/
def utf8Step (b0 : Nat) (rest : List Nat) : Nat × List Nat :=
  if b0 < 0x80 then (b0, rest)
  else if 0xC2 ≤ b0 ∧ b0 ≤ 0xDF then utf8Step2 b0 rest
  else if 0xE0 ≤ b0 ∧ b0 ≤ 0xEF then utf8Step3 b0 rest
  else if 0xF0 ≤ b0 ∧ b0 ≤ 0xF4 then utf8Step4 b0 rest
  else (replChar, rest)

theorem utf8Step4c_length (b0 b1 b2 : Nat) (l : List Nat) :
    (utf8Step4c b0 b1 b2 l).2.length ≤ l.length := by
  cases l with
  | nil => simp [utf8Step4c]
  | cons b3 rest3 => simp only [utf8Step4c]; split <;> simp

theorem utf8Step4b_length (b0 b1 : Nat) (l : List Nat) :
    (utf8Step4b b0 b1 l).2.length ≤ l.length := by
  cases l with
  | nil => simp [utf8Step4b]
  | cons b2 rest2 =>
    simp only [utf8Step4b]
    split
    · exact le_trans (utf8Step4c_length b0 b1 b2 rest2) (by simp)
    · simp

theorem utf8Step4_length (b0 : Nat) (l : List Nat) :
    (utf8Step4 b0 l).2.length ≤ l.length := by
  cases l with
  | nil => simp [utf8Step4]
  | cons b1 rest1 =>
    simp only [utf8Step4]
    split
    · exact le_trans (utf8Step4b_length b0 b1 rest1) (by simp)
    · simp

theorem utf8Step3b_length (b0 b1 : Nat) (l : List Nat) :
    (utf8Step3b b0 b1 l).2.length ≤ l.length := by
  cases l with
  | nil => simp [utf8Step3b]
  | cons b2 rest2 => simp only [utf8Step3b]; split <;> simp

theorem utf8Step3_length (b0 : Nat) (l : List Nat) :
    (utf8Step3 b0 l).2.length ≤ l.length := by
  cases l with
  | nil => simp [utf8Step3]
  | cons b1 rest1 =>
    simp only [utf8Step3]
    split
    · exact le_trans (utf8Step3b_length b0 b1 rest1) (by simp)
    · simp

theorem utf8Step2_length (b0 : Nat) (l : List Nat) :
    (utf8Step2 b0 l).2.length ≤ l.length := by
  cases l with
  | nil => simp [utf8Step2]
  | cons b1 rest1 => simp only [utf8Step2]; split <;> simp

/-- A decoding step never lengthens the remaining input. -/
theorem utf8Step_length (b0 : Nat) (rest : List Nat) :
    (utf8Step b0 rest).2.length ≤ rest.length := by
  simp only [utf8Step]
  split
  · simp
  · split
    · exact utf8Step2_length b0 rest
    · split
      · exact utf8Step3_length b0 rest
      · split
        · exact utf8Step4_length b0 rest
        · simp

/-- Lossy UTF-8 decoding to a list of scalar values. -/
def utf8DecodeLossy (l : List Nat) : List Nat :=
  match l with
  | [] => []
  | b0 :: rest =>
    (utf8Step b0 rest).1 :: utf8DecodeLossy (utf8Step b0 rest).2
termination_by l.length
decreasing_by
  simp only [List.length_cons]
  exact Nat.lt_succ_of_le (utf8Step_length _ _)

/-- Unfolding of `utf8DecodeLossy` on an empty input. -/
theorem utf8DecodeLossy_nil : utf8DecodeLossy [] = [] := by
  rw [utf8DecodeLossy.eq_def]

/-- Unfolding of `utf8DecodeLossy` on a non-empty input. -/
theorem utf8DecodeLossy_cons (b0 : Nat) (rest : List Nat) :
    utf8DecodeLossy (b0 :: rest) =
      (utf8Step b0 rest).1 :: utf8DecodeLossy (utf8Step b0 rest).2 := by
  rw [utf8DecodeLossy.eq_def]

/-- `String::from_utf8_lossy`, modelled from the spec. -/
def String_from_utf8_lossy (bs : Bytes) : String :=
  ⟨(utf8DecodeLossy bs).map Char.ofNat⟩

/-- UTF-8 encoding of a scalar value. -/
def utf8EncodeChar (n : Nat) : Bytes :=
  if n < 0x80 then [n]
  else if n < 0x800 then [0xC0 + n / 64, 0x80 + n % 64]
  else if n < 0x10000 then
    [0xE0 + n / 4096, 0x80 + n / 64 % 64, 0x80 + n % 64]
  else
    [0xF0 + n / 262144, 0x80 + n / 4096 % 64, 0x80 + n / 64 % 64, 0x80 + n % 64]

/-- The bytes a Rust `String` holds: UTF-8 encoding of its characters. -/
def utf8Encode (s : String) : Bytes :=
  (s.data.map Char.toNat).flatMap utf8EncodeChar

/-- A decoding step applied to a valid encoded scalar recovers the scalar
and consumes exactly its bytes. -/
theorem utf8Step_encodeChar (n : Nat) (h : Nat.isValidChar n) (rest : Bytes) :
    ∃ b0 tl, utf8EncodeChar n ++ rest = b0 :: tl ∧ utf8Step b0 tl = (n, rest) := by
  rcases h with h | ⟨h1, h2⟩
  · by_cases ha : n < 0x80
    · refine ⟨n, rest, by rw [utf8EncodeChar, if_pos ha]; rfl, ?_⟩
      simp only [utf8Step]
      rw [if_pos ha]
    · by_cases hb : n < 0x800
      · refine ⟨0xC0 + n / 64, (0x80 + n % 64) :: rest,
          by rw [utf8EncodeChar, if_neg ha, if_pos hb]; rfl, ?_⟩
        simp only [utf8Step]
        rw [if_neg (by omega), if_pos (by constructor <;> omega)]
        simp only [utf8Step2]
        rw [if_pos (by constructor <;> omega),
          show (0xC0 + n / 64 - 0xC0) * 64 + (0x80 + n % 64 - 0x80) = n from by omega]
      · refine ⟨0xE0 + n / 4096, (0x80 + n / 64 % 64) :: (0x80 + n % 64) :: rest,
          by rw [utf8EncodeChar, if_neg ha, if_neg hb, if_pos (by omega)]; rfl, ?_⟩
        simp only [utf8Step]
        rw [if_neg (by omega), if_neg (by omega), if_pos (by constructor <;> omega)]
        simp only [utf8Step3]
        rw [if_pos ?side]
        case side =>
          constructor
          · rw [cont3Lo]; split <;> omega
          · rw [cont3Hi]; split <;> omega
        simp only [utf8Step3b]
        rw [if_pos (by constructor <;> omega),
          show (0xE0 + n / 4096 - 0xE0) * 4096 + (0x80 + n / 64 % 64 - 0x80) * 64 +
            (0x80 + n % 64 - 0x80) = n from by omega]
  · by_cases hc : n < 0x10000
    · refine ⟨0xE0 + n / 4096, (0x80 + n / 64 % 64) :: (0x80 + n % 64) :: rest,
        by rw [utf8EncodeChar, if_neg (by omega), if_neg (by omega), if_pos hc]; rfl, ?_⟩
      simp only [utf8Step]
      rw [if_neg (by omega), if_neg (by omega), if_pos (by constructor <;> omega)]
      simp only [utf8Step3]
      rw [if_pos ?side]
      case side =>
        constructor
        · rw [cont3Lo]; split <;> omega
        · rw [cont3Hi]; split <;> omega
      simp only [utf8Step3b]
      rw [if_pos (by constructor <;> omega),
        show (0xE0 + n / 4096 - 0xE0) * 4096 + (0x80 + n / 64 % 64 - 0x80) * 64 +
          (0x80 + n % 64 - 0x80) = n from by omega]
    · refine ⟨0xF0 + n / 262144,
        (0x80 + n / 4096 % 64) :: (0x80 + n / 64 % 64) :: (0x80 + n % 64) :: rest,
        by rw [utf8EncodeChar, if_neg (by omega), if_neg (by omega), if_neg (by omega)]; rfl, ?_⟩
      simp only [utf8Step]
      rw [if_neg (by omega), if_neg (by omega), if_neg (by omega),
        if_pos (by constructor <;> omega)]
      simp only [utf8Step4]
      rw [if_pos ?side]
      case side =>
        constructor
        · rw [cont4Lo]; split <;> omega
        · rw [cont4Hi]; split <;> omega
      simp only [utf8Step4b]
      rw [if_pos (by constructor <;> omega)]
      simp only [utf8Step4c]
      rw [if_pos (by constructor <;> omega),
        show (0xF0 + n / 262144 - 0xF0) * 262144 + (0x80 + n / 4096 % 64 - 0x80) * 4096 +
          (0x80 + n / 64 % 64 - 0x80) * 64 + (0x80 + n % 64 - 0x80) = n from by omega]

/-- Decoding a valid encoded scalar consumes exactly its bytes. -/
theorem utf8DecodeLossy_encodeChar (n : Nat) (h : Nat.isValidChar n)
    (rest : Bytes) :
    utf8DecodeLossy (utf8EncodeChar n ++ rest) = n :: utf8DecodeLossy rest := by
  obtain ⟨b0, tl, he, hs⟩ := utf8Step_encodeChar n h rest
  rw [he, utf8DecodeLossy_cons, hs]

/-- Lossy decoding inverts encoding on lists of valid scalar values. -/
theorem utf8DecodeLossy_flatMap (l : List Nat) (h : ∀ n ∈ l, Nat.isValidChar n) :
    utf8DecodeLossy (l.flatMap utf8EncodeChar) = l := by
  induction l with
  | nil => simpa using utf8DecodeLossy_nil
  | cons n tl ih =>
    rw [List.flatMap_cons, utf8DecodeLossy_encodeChar n (h n (by simp)) _,
      ih (fun m hm => h m (by simp [hm]))]

/-- Mapping `Char.ofNat` after `Char.toNat` over a character list is the
identity. -/
theorem map_ofNat_toNat (l : List Char) :
    (l.map Char.toNat).map Char.ofNat = l := by
  induction l with
  | nil => rfl
  | cons c tl ih => simp only [List.map_cons, ih, Char.ofNat_toNat]

/-- Round trip: lossily decoding the UTF-8 bytes of a string gives it back. -/
theorem from_utf8_lossy_encode (s : String) :
    String_from_utf8_lossy (utf8Encode s) = s := by
  rw [String_from_utf8_lossy, utf8Encode, utf8DecodeLossy_flatMap]
  · rw [map_ofNat_toNat]
  · intro n hn
    simp only [List.mem_map] at hn
    obtain ⟨c, _, rfl⟩ := hn
    exact c.valid

/-! ### Reboot controller (`reboot.rs`) -/

/-- `RebootContext` (from `reboot.rs`): a single field `work_set` carrying
the opaque payload.  The payload type `WS` stands for `WorkSet`
(`work.rs`, not part of these sources; modelled from the spec as an opaque
serializable value). -/
structure RebootContext (WS : Type) : Type where
  work_set : WS
deriving DecidableEq, Repr

/-- Model of `serde_json` specialised to `RebootContext` values:
`to_vec` serialises (fallibly, with an error message) and `from_slice`
parses (fallibly).  Modelled from the spec: the encoding is an opaque
self-describing textual structured format, fixed across producer and
consumer. -/
structure Serde (WS : Type) : Type where
  to_vec : RebootContext WS → Except String Bytes
  from_slice : Bytes → Except String (RebootContext WS)

/-- `reboot_context_path` (from `reboot.rs`):
`onefuzz_root()?.join(format!("reboot_context_{}.json", machine_id))`. -/
def reboot_context_path (env : Env) (machine_id : String) :
    Except Err String :=
  match onefuzz_root env with
  | .error e => .error e
  | .ok r => .ok (pathJoin r ("reboot_context_" ++ machine_id ++ ".json"))

/-- `Reboot::save_context` (from `reboot.rs`): resolve the path, serialise
the context with `serde_json::to_vec`, then `fs::write` with a
path-annotated context message. -/
def save_context {WS : Type} (J : Serde WS) (env : Env) (machine_id : String)
    (ctx : RebootContext WS) (w : World) : Except Err Unit × World :=
  match reboot_context_path env machine_id with
  | .error e => (.error e, w)
  | .ok path =>
    match J.to_vec ctx with
    | .error s => (.error (.serde s), w)
    | .ok data =>
      match fsWrite w path data with
      | (.error k, w') =>
        (.error (.context ("unable to save reboot context: " ++ path) (.ioErr k)), w')
      | (.ok _, w') => (.ok (), w')

/-- `Reboot::load_context` (from `reboot.rs`): `fs::read` the path; a
`NotFound` read error yields `none`; any other read error is propagated
bare (plain `?`, no added context); on a successful read, parse with
`serde_json::from_slice` (parse errors propagated as serialization
errors), then `fs::remove_file` with a path-annotated context message,
and only then return the parsed context. -/
def load_context {WS : Type} (J : Serde WS) (env : Env) (machine_id : String)
    (w : World) : Except Err (Option (RebootContext WS)) × World :=
  match reboot_context_path env machine_id with
  | .error e => (.error e, w)
  | .ok path =>
    match fsRead w path with
    | .error k =>
      if k = ErrKind.notFound then (.ok none, w)
      else (.error (.ioErr k), w)
    | .ok data =>
      match J.from_slice data with
      | .error s => (.error (.serde s), w)
      | .ok ctx =>
        match fsRemove w path with
        | (.error k, w') =>
          (.error (.context ("unable to remove reboot context: " ++ path) (.ioErr k)), w')
        | (.ok _, w') => (.ok (some ctx), w')

/-- The outcome of `Command::status` for the platform reboot command
(`reboot -f` on Unix, `powershell.exe -Command Restart-Computer -Force`
on Windows): either an OS error spawning the command, or an exit code. -/
abbrev SpawnOutcome := Except ErrKind Nat

/-- `Reboot::wait_for_reboot` (from `reboot.rs`): sleep for the bounded
10-minute window (no observable effect in this model), then
`anyhow::bail!("Failed to reboot in 10 minutes")`. -/
def wait_for_reboot : Except Err Unit :=
  .error (.msg "Failed to reboot in 10 minutes")

/-- `Reboot::invoke` (from `reboot.rs`, both platform variants): spawn the
platform reboot command (propagating a spawn failure via `?`), then
`wait_for_reboot`. -/
def invoke (spawn : SpawnOutcome) : Except Err Unit :=
  match spawn with
  | .error k => .error (.ioErr k)
  | .ok _ => wait_for_reboot

/-! ### Failure store (`failure.rs`) -/

/-- The verbose `{:?}` rendering of an `anyhow::Error`: the message
followed by the full causal chain.  Modelled from the spec: `save_failure`
renders the error to a verbose multi-line string, message plus full
causal chain. -/
def Err.render : Err → String
  | .ioErr .notFound => "No such file or directory (os error 2)"
  | .ioErr .permissionDenied => "Permission denied (os error 13)"
  | .ioErr .other => "other os error"
  | .serde s => s
  | .config => "unable to resolve onefuzz root"
  | .msg s => s
  | .context s cause => s ++ "\n\nCaused by:\n    " ++ cause.render

/-- `failure_path` (from `failure.rs`):
`onefuzz_root()?.join(format!("onefuzz-agent-failure-{}.txt", machine_id))`. -/
def failure_path (env : Env) (machine_id : String) : Except Err String :=
  match onefuzz_root env with
  | .error e => .error e
  | .ok r => .ok (pathJoin r ("onefuzz-agent-failure-" ++ machine_id ++ ".txt"))

/-- `save_failure` (from `failure.rs`): render the error with `{:?}` and
`fs::write` it to the failure path with a path-annotated context
message. -/
def save_failure (env : Env) (err : Err) (machine_id : String) (w : World) :
    Except Err Unit × World :=
  match failure_path env machine_id with
  | .error e => (.error e, w)
  | .ok path =>
    match fsWrite w path (utf8Encode (Err.render err)) with
    | (.error k, w') =>
      (.error (.context ("unable to write failure log: " ++ path) (.ioErr k)), w')
    | (.ok _, w') => (.ok (), w')

/-- `read_file_lossy` (from `failure.rs`): `fs::read` with a
path-annotated context message, then `String::from_utf8_lossy`. -/
def read_file_lossy (w : World) (path : String) : Except Err String :=
  match fsRead w path with
  | .error k => .error (.context ("unable to read file: " ++ path) (.ioErr k))
  | .ok content => .ok (String_from_utf8_lossy content)

/-- `read_failure` (from `failure.rs`): `read_file_lossy` at the failure
path.  Reading never changes the filesystem, so no state is returned. -/
def read_failure (env : Env) (machine_id : String) (w : World) :
    Except Err String :=
  match failure_path env machine_id with
  | .error e => .error e
  | .ok path => read_file_lossy w path

/-- The loop body of `read_logs` (from `failure.rs`): for each directory
entry, a failed entry aborts with context `"unable to get log file
context"`; otherwise the entry's path and its lossily-read content are
pushed, a read failure aborting with context `"unable to read log
file"`. -/
def read_logs_entries (w : World) :
    List (Except ErrKind String) → Except Err (List String)
  | [] => .ok []
  | .error k :: _ => .error (.context "unable to get log file context" (.ioErr k))
  | .ok p :: rest =>
    match read_file_lossy w p with
    | .error e => .error (.context "unable to read log file" e)
    | .ok content =>
      match read_logs_entries w rest with
      | .error e => .error e
      | .ok results => .ok (p :: content :: results)

/-- `read_logs` (from `failure.rs`): enumerate the log directory with a
path-annotated context message on enumeration failure, push each entry's
path and lossy content, and join the pushed strings with `"\n\n"`. -/
def read_logs (env : Env) (w : World) : Except Err String :=
  match onefuzz_logs env with
  | .error e => .error e
  | .ok log_path =>
    match w.dirEntries log_path with
    | .error k =>
      .error (.context ("unable to read logs directory: " ++ log_path) (.ioErr k))
    | .ok entries =>
      match read_logs_entries w entries with
      | .error e => .error e
      | .ok results => .ok (String.intercalate "\n\n" results)

/-! ### Association-list lemmas for the file map -/

theorem lookupFile_setFile_self (l : List (String × Bytes)) (p : String)
    (v : Bytes) : lookupFile (setFile l p v) p = some v := by
  induction l with
  | nil => simp [lookupFile, setFile, List.find?]
  | cons e rest ih =>
    by_cases h : e.1 = p
    · simp [lookupFile, setFile, h, List.find?]
    · simpa [lookupFile, setFile, h, List.find?] using ih

theorem lookupFile_setFile_ne (l : List (String × Bytes)) (p q : String)
    (v : Bytes) (h : q ≠ p) : lookupFile (setFile l p v) q = lookupFile l q := by
  have hpq : ¬(p = q) := fun h' => h h'.symm
  induction l with
  | nil => simp [lookupFile, setFile, List.find?, hpq]
  | cons e rest ih =>
    by_cases he : e.1 = p
    · simp [lookupFile, setFile, he, List.find?, hpq]
    · by_cases hq : e.1 = q
      · have hq' : (fun e : String × Bytes => decide (e.1 = q)) e = true := by
          simp [hq]
        simp only [setFile, if_neg he, lookupFile]
        rw [List.find?_cons_of_pos (p := fun e : String × Bytes => decide (e.1 = q)) _ hq',
          List.find?_cons_of_pos (p := fun e : String × Bytes => decide (e.1 = q)) _ hq']
      · simpa [lookupFile, setFile, he, hq, List.find?] using ih

theorem lookupFile_delFile_self (l : List (String × Bytes)) (p : String) :
    lookupFile (delFile l p) p = none := by
  induction l with
  | nil => simp [lookupFile, delFile, List.find?]
  | cons e rest ih =>
    by_cases h : e.1 = p
    · simpa [lookupFile, delFile, h, List.find?] using ih
    · simpa [lookupFile, delFile, h, List.find?] using ih

theorem setFile_setFile_self (l : List (String × Bytes)) (p : String)
    (v1 v2 : Bytes) : setFile (setFile l p v1) p v2 = setFile l p v2 := by
  induction l with
  | nil => simp [setFile]
  | cons e rest ih =>
    by_cases h : e.1 = p
    · simp [setFile, h]
    · simp [setFile, h, ih]

/-! ### Path lemmas -/

theorem reboot_context_path_ok (env : Env) (root mid : String)
    (hroot : env.root = some root) :
    reboot_context_path env mid =
      .ok (pathJoin root ("reboot_context_" ++ mid ++ ".json")) := by
  simp [reboot_context_path, onefuzz_root, hroot]

theorem failure_path_ok (env : Env) (root mid : String)
    (hroot : env.root = some root) :
    failure_path env mid =
      .ok (pathJoin root ("onefuzz-agent-failure-" ++ mid ++ ".txt")) := by
  simp [failure_path, onefuzz_root, hroot]

/-- C1: `save_context` then `load_context` returns the saved context and
deletes the file; a second `load_context` returns `none`. -/
theorem save_load_roundtrip {WS : Type} (J : Serde WS) (env : Env)
    (mid root P : String) (c : RebootContext WS) (w : World) (data : Bytes)
    (hroot : env.root = some root)
    (hP : P = pathJoin root ("reboot_context_" ++ mid ++ ".json"))
    (henc : J.to_vec c = .ok data) (hdec : J.from_slice data = .ok c)
    (hw : w.writeFail P = none) (hr : w.readFail P = none)
    (hm : w.removeFail P = none) :
    ∃ w1 w2,
      save_context J env mid c w = (.ok (), w1) ∧
      load_context J env mid w1 = (.ok (some c), w2) ∧
      w2.lookup P = none ∧
      load_context J env mid w2 = (.ok none, w2) := by
  have hpath : reboot_context_path env mid = .ok P := by
    rw [hP]; exact reboot_context_path_ok env root mid hroot
  refine ⟨{ w with files := setFile w.files P data },
    { w with files := delFile (setFile w.files P data) P }, ?_, ?_, ?_, ?_⟩
  · simp only [save_context, hpath, henc, fsWrite, hw]
  · simp only [load_context, hpath, fsRead, hr, World.lookup,
      lookupFile_setFile_self, hdec, fsRemove, hm]
  · simp only [World.lookup, lookupFile_delFile_self]
  · simp only [load_context, hpath, fsRead, hr, World.lookup,
      lookupFile_delFile_self, if_true]

/-- C2: if the context file exists but parsing fails, `load_context`
returns a serialization error and the world — including the file — is
unchanged. -/
theorem load_context_parse_failure {WS : Type} (J : Serde WS) (env : Env)
    (mid root P es : String) (w : World) (bytes : Bytes)
    (hroot : env.root = some root)
    (hP : P = pathJoin root ("reboot_context_" ++ mid ++ ".json"))
    (hfile : w.lookup P = some bytes) (hr : w.readFail P = none)
    (hparse : J.from_slice bytes = .error es) :
    load_context J env mid w = (.error (.serde es), w) ∧
    (load_context J env mid w).2.lookup P = some bytes := by
  have hpath : reboot_context_path env mid = .ok P := by
    rw [hP]; exact reboot_context_path_ok env root mid hroot
  have h1 : load_context J env mid w = (.error (.serde es), w) := by
    simp only [load_context, hpath, fsRead, hr, hfile, hparse]
  exact ⟨h1, by rw [h1]; exact hfile⟩

/-- C3: if the context file is read and parsed but deletion fails,
`load_context` returns a path-annotated error, not the parsed value,
and the world is unchanged. -/
theorem load_context_remove_failure {WS : Type} (J : Serde WS) (env : Env)
    (mid root P : String) (w : World) (bytes : Bytes) (c : RebootContext WS)
    (k : ErrKind)
    (hroot : env.root = some root)
    (hP : P = pathJoin root ("reboot_context_" ++ mid ++ ".json"))
    (hfile : w.lookup P = some bytes) (hr : w.readFail P = none)
    (hparse : J.from_slice bytes = .ok c)
    (hk : w.removeFail P = some k) :
    load_context J env mid w =
      (.error (.context ("unable to remove reboot context: " ++ P) (.ioErr k)), w) ∧
    ∀ v : Option (RebootContext WS), (load_context J env mid w).1 ≠ .ok v := by
  have hpath : reboot_context_path env mid = .ok P := by
    rw [hP]; exact reboot_context_path_ok env root mid hroot
  have h1 : load_context J env mid w =
      (.error (.context ("unable to remove reboot context: " ++ P) (.ioErr k)), w) := by
    simp only [load_context, hpath, fsRead, hr, hfile, hparse, fsRemove, hk]
  refine ⟨h1, fun v hv => ?_⟩
  rw [h1] at hv
  exact Except.noConfusion hv

/-- C4: with no context file present, `load_context` returns `none`
(not an error) and leaves the world unchanged. -/
theorem load_context_cold_start {WS : Type} (J : Serde WS) (env : Env)
    (mid root P : String) (w : World)
    (hroot : env.root = some root)
    (hP : P = pathJoin root ("reboot_context_" ++ mid ++ ".json"))
    (hnone : w.lookup P = none) (hr : w.readFail P = none) :
    load_context J env mid w = (.ok none, w) := by
  have hpath : reboot_context_path env mid = .ok P := by
    rw [hP]; exact reboot_context_path_ok env root mid hroot
  simp only [load_context, hpath, fsRead, hr, hnone, if_true]

/-- C10: if serialization fails, `save_context` returns a serialization
error and the world — in particular the context file — is unchanged. -/
theorem save_context_serialize_failure {WS : Type} (J : Serde WS) (env : Env)
    (mid root es : String) (c : RebootContext WS) (w : World)
    (hroot : env.root = some root)
    (henc : J.to_vec c = .error es) :
    save_context J env mid c w = (.error (.serde es), w) := by
  have hpath := reboot_context_path_ok env root mid hroot
  simp only [save_context, hpath, henc]

/-- C9: `invoke` never returns successfully: either spawning the platform
reboot command fails and that error is returned, or the bounded wait
elapses and the reboot-timeout error is returned. -/
theorem invoke_never_ok (spawn : SpawnOutcome) :
    (∀ u : Unit, invoke spawn ≠ .ok u) ∧
    ((∃ k, spawn = .error k ∧ invoke spawn = .error (.ioErr k)) ∨
      invoke spawn = .error (.msg "Failed to reboot in 10 minutes")) := by
  cases spawn with
  | error k =>
    exact ⟨fun u hv => Except.noConfusion hv, .inl ⟨k, rfl, rfl⟩⟩
  | ok code =>
    exact ⟨fun u hv => Except.noConfusion hv, .inr rfl⟩

/-- C7: `read_failure` decodes any existing file content lossily (total
for arbitrary bytes), and fails with a path-annotated error exactly when
the read fails — a missing file included. -/
theorem read_failure_lossy (env : Env) (mid root FP : String) (w : World)
    (hroot : env.root = some root)
    (hFP : FP = pathJoin root ("onefuzz-agent-failure-" ++ mid ++ ".txt")) :
    (∀ bytes, w.readFail FP = none → w.lookup FP = some bytes →
        read_failure env mid w = .ok (String_from_utf8_lossy bytes)) ∧
    (w.readFail FP = none → w.lookup FP = none →
        read_failure env mid w =
          .error (.context ("unable to read file: " ++ FP) (.ioErr .notFound))) ∧
    (∀ k, w.readFail FP = some k →
        read_failure env mid w =
          .error (.context ("unable to read file: " ++ FP) (.ioErr k))) := by
  have hpath : failure_path env mid = .ok FP := by
    rw [hFP]; exact failure_path_ok env root mid hroot
  refine ⟨fun bytes hr hl => ?_, fun hr hl => ?_, fun k hk => ?_⟩
  · simp only [read_failure, hpath, read_file_lossy, fsRead, hr, hl]
  · simp only [read_failure, hpath, read_file_lossy, fsRead, hr, hl]
  · simp only [read_failure, hpath, read_file_lossy, fsRead, hk]

/-- C8: `save_failure` then `read_failure` returns exactly the verbose
rendering of the error; a second `save_failure` replaces the record
entirely — afterwards the file holds exactly the second rendering, and
the file map is the same as if the first save had never happened. -/
theorem save_then_read_failure (env : Env) (e e2 : Err) (mid root FP : String)
    (w : World)
    (hroot : env.root = some root)
    (hFP : FP = pathJoin root ("onefuzz-agent-failure-" ++ mid ++ ".txt"))
    (hw : w.writeFail FP = none) (hr : w.readFail FP = none) :
    ∃ w1 w2,
      save_failure env e mid w = (.ok (), w1) ∧
      read_failure env mid w1 = .ok (Err.render e) ∧
      save_failure env e2 mid w1 = (.ok (), w2) ∧
      read_failure env mid w2 = .ok (Err.render e2) ∧
      w2.lookup FP = some (utf8Encode (Err.render e2)) ∧
      w2.files = (save_failure env e2 mid w).2.files := by
  have hpath : failure_path env mid = .ok FP := by
    rw [hFP]; exact failure_path_ok env root mid hroot
  refine ⟨{ w with files := setFile w.files FP (utf8Encode (Err.render e)) },
    { w with files := setFile (setFile w.files FP (utf8Encode (Err.render e))) FP (utf8Encode (Err.render e2)) },
    ?_, ?_, ?_, ?_, ?_, ?_⟩
  · simp only [save_failure, hpath, fsWrite, hw]
  · simp only [read_failure, hpath, read_file_lossy, fsRead, hr, World.lookup,
      lookupFile_setFile_self, from_utf8_lossy_encode]
  · simp only [save_failure, hpath, fsWrite, hw]
  · simp only [read_failure, hpath, read_file_lossy, fsRead, hr, World.lookup,
      lookupFile_setFile_self, from_utf8_lossy_encode]
  · simp only [World.lookup, lookupFile_setFile_self]
  · simp only [save_failure, hpath, fsWrite, hw, setFile_setFile_self]

/-- The `read_logs` loop on all-successful entries: paths interleaved
with their lossily-decoded contents. -/
theorem read_logs_entries_ok (w : World) (ps : List String)
    (cont : String → Bytes)
    (h : ∀ p ∈ ps, w.readFail p = none ∧ w.lookup p = some (cont p)) :
    read_logs_entries w (ps.map Except.ok) =
      .ok (ps.flatMap fun p => [p, String_from_utf8_lossy (cont p)]) := by
  induction ps with
  | nil => rfl
  | cons p rest ih =>
    obtain ⟨hr, hl⟩ := h p (by simp)
    simp only [List.map_cons, read_logs_entries, read_file_lossy, fsRead, hr, hl,
      ih (fun q hq => h q (by simp [hq])), List.flatMap_cons, List.cons_append,
      List.nil_append]

/-- C5 (amended): `read_logs` joins the sequence
`path₁, content₁, path₂, content₂, …` with one blank line between
consecutive elements — so a blank line also separates each path from its
own file's content. -/
theorem read_logs_format (env : Env) (w : World) (lroot : String)
    (ps : List String) (cont : String → Bytes)
    (hlogs : env.logs = some lroot)
    (hdir : w.dirEntries lroot = .ok (ps.map Except.ok))
    (h : ∀ p ∈ ps, w.readFail p = none ∧ w.lookup p = some (cont p)) :
    read_logs env w = .ok (String.intercalate "\n\n"
      (ps.flatMap fun p => [p, String_from_utf8_lossy (cont p)])) := by
  simp only [read_logs, onefuzz_logs, hlogs, hdir, read_logs_entries_ok w ps cont h]

/-- The layout claim C5 describes, taken literally: each file's content
immediately preceded by that file's path on its own line, consecutive
files' blocks separated by exactly one blank line. -/
def read_logs_claimed_format (entries : List (String × String)) : String :=
  String.intercalate "\n\n" (entries.map fun e => e.1 ++ "\n" ++ e.2)

/-- Log directory world for the C5 counterexample: one log file
`/logs/a.log` with ASCII content `hello`. -/
def cLogWorld : World where
  files := [("/logs/a.log", utf8Encode "hello")]
  readFail := fun _ => none
  writeFail := fun _ => none
  removeFail := fun _ => none
  dirEntries := fun _ => .ok [.ok "/logs/a.log"]

/-- Environment for concrete runs: `StateRoot = /onefuzz`,
`LogRoot = /logs`. -/
def cEnv : Env := ⟨some "/onefuzz", some "/logs"⟩

/-- C5 counterexample: with a single log file `/logs/a.log` containing
`hello`, `read_logs` yields a blank line between the path line and the
content, not the claimed layout in which content immediately follows the
path line. -/
theorem read_logs_blank_line_counterexample :
    read_logs cEnv cLogWorld = .ok "/logs/a.log\n\nhello" ∧
    read_logs_claimed_format [("/logs/a.log", "hello")] = "/logs/a.log\nhello" ∧
    "/logs/a.log\n\nhello" ≠ "/logs/a.log\nhello" := by
  refine ⟨?_, by decide, by decide⟩
  have hlossy : String_from_utf8_lossy (utf8Encode "hello") = "hello" :=
    from_utf8_lossy_encode "hello"
  simp only [read_logs, onefuzz_logs, cEnv, cLogWorld, read_logs_entries,
    read_file_lossy, fsRead, World.lookup, lookupFile, List.find?, decide_True,
    Option.map, hlossy]
  rfl

/-- An error is annotated with path `p` when some `context` layer's
message contains `p` as a substring. -/
def Err.annotatedWith (p : String) : Err → Prop
  | .context s cause => (∃ x y, s.data = x ++ p.data ++ y) ∨ cause.annotatedWith p
  | _ => False

/-- A context layer whose message ends with `p` is annotated with `p`. -/
theorem annotatedWith_append (a p : String) (cause : Err) :
    (Err.context (a ++ p) cause).annotatedWith p :=
  .inl ⟨a.data, [], by show a.data ++ p.data = a.data ++ p.data ++ []
                       rw [List.append_nil]⟩

/-- C6 (amended): write failures in `save_failure` and `save_context`,
read failures in `read_failure` and on individual log files in the
`read_logs` loop, log-directory enumeration failures, and delete failures
in `load_context` are all annotated with the offending path — but a
non-`NotFound` read failure inside `load_context` is propagated bare,
without any path annotation. -/
theorem io_error_path_contexts {WS : Type} (J : Serde WS) (env : Env)
    (w : World) (root lroot mid FP CP : String)
    (hroot : env.root = some root) (hlogs : env.logs = some lroot)
    (hFP : FP = pathJoin root ("onefuzz-agent-failure-" ++ mid ++ ".txt"))
    (hCP : CP = pathJoin root ("reboot_context_" ++ mid ++ ".json")) :
    (∀ (e : Err) (k : ErrKind), w.writeFail FP = some k →
      ∃ er, save_failure env e mid w = (.error er, w) ∧ er.annotatedWith FP) ∧
    (∀ k : ErrKind, w.readFail FP = some k →
      ∃ er, read_failure env mid w = .error er ∧ er.annotatedWith FP) ∧
    (∀ k : ErrKind, w.dirEntries lroot = .error k →
      ∃ er, read_logs env w = .error er ∧ er.annotatedWith lroot) ∧
    (∀ (p : String) (k : ErrKind) (rest : List (Except ErrKind String)),
      w.readFail p = some k →
      ∃ er, read_logs_entries w (.ok p :: rest) = .error er ∧
        er.annotatedWith p) ∧
    (∀ (c : RebootContext WS) (data : Bytes) (k : ErrKind),
      J.to_vec c = .ok data → w.writeFail CP = some k →
      ∃ er, save_context J env mid c w = (.error er, w) ∧
        er.annotatedWith CP) ∧
    (∀ (bytes : Bytes) (c : RebootContext WS) (k : ErrKind),
      w.lookup CP = some bytes → w.readFail CP = none →
      J.from_slice bytes = .ok c → w.removeFail CP = some k →
      ∃ er, load_context J env mid w = (.error er, w) ∧
        er.annotatedWith CP) ∧
    (∀ k : ErrKind, w.readFail CP = some k → k ≠ .notFound →
      load_context J env mid w = (.error (.ioErr k), w) ∧
      ¬ (Err.ioErr k).annotatedWith CP) := by
  have hfp : failure_path env mid = .ok FP := by
    rw [hFP]; exact failure_path_ok env root mid hroot
  have hcp : reboot_context_path env mid = .ok CP := by
    rw [hCP]; exact reboot_context_path_ok env root mid hroot
  refine ⟨fun e k hk => ?_, fun k hk => ?_, fun k hk => ?_,
    fun p k rest hk => ?_, fun c data k henc hk => ?_,
    fun bytes c k hl hr hparse hk => ?_, fun k hk hne => ?_⟩
  · refine ⟨.context ("unable to write failure log: " ++ FP) (.ioErr k), ?_,
      annotatedWith_append "unable to write failure log: " FP _⟩
    simp only [save_failure, hfp, fsWrite, hk]
  · refine ⟨.context ("unable to read file: " ++ FP) (.ioErr k), ?_,
      annotatedWith_append "unable to read file: " FP _⟩
    simp only [read_failure, hfp, read_file_lossy, fsRead, hk]
  · refine ⟨.context ("unable to read logs directory: " ++ lroot) (.ioErr k), ?_,
      annotatedWith_append "unable to read logs directory: " lroot _⟩
    simp only [read_logs, onefuzz_logs, hlogs, hk]
  · refine ⟨.context "unable to read log file"
        (.context ("unable to read file: " ++ p) (.ioErr k)), ?_,
      Or.inr (annotatedWith_append "unable to read file: " p _)⟩
    simp only [read_logs_entries, read_file_lossy, fsRead, hk]
  · refine ⟨.context ("unable to save reboot context: " ++ CP) (.ioErr k), ?_,
      annotatedWith_append "unable to save reboot context: " CP _⟩
    simp only [save_context, hcp, henc, fsWrite, hk]
  · refine ⟨.context ("unable to remove reboot context: " ++ CP) (.ioErr k), ?_,
      annotatedWith_append "unable to remove reboot context: " CP _⟩
    simp only [load_context, hcp, fsRead, hr, hl, hparse, fsRemove, hk]
  · refine ⟨?_, fun h => h⟩
    simp only [load_context, hcp, fsRead, hk, if_neg hne]

/-- World for the C6 counterexample: every read fails with
`PermissionDenied`. -/
def cUnreadableWorld : World where
  files := []
  readFail := fun _ => some .permissionDenied
  writeFail := fun _ => none
  removeFail := fun _ => none
  dirEntries := fun _ => .error .other

/-- A concrete serde instance over `WorkSet := Nat` for concrete runs:
one byte holding the payload. -/
def cSerde : Serde Nat where
  to_vec c := .ok [c.work_set]
  from_slice bs :=
    match bs with
    | [n] => .ok ⟨n⟩
    | _ => .error "invalid JSON"

/-- C6 counterexample: a `PermissionDenied` read inside `load_context`
is returned as the bare I/O error, carrying no annotation with the
context file path. -/
theorem load_read_error_unannotated_counterexample :
    load_context cSerde cEnv "m1" cUnreadableWorld =
      (.error (.ioErr .permissionDenied), cUnreadableWorld) ∧
    ¬ (Err.ioErr .permissionDenied).annotatedWith
        (pathJoin "/onefuzz" ("reboot_context_" ++ "m1" ++ ".json")) :=
  ⟨rfl, fun h => h⟩

/-! ### Concrete worlds and witnesses -/

/-- Empty state root, all operations behaving normally. -/
def cEmptyWorld : World where
  files := []
  readFail := fun _ => none
  writeFail := fun _ => none
  removeFail := fun _ => none
  dirEntries := fun _ => .error .other

/-- Every write fails with a generic OS error. -/
def cWriteFailWorld : World where
  files := []
  readFail := fun _ => none
  writeFail := fun _ => some .other
  removeFail := fun _ => none
  dirEntries := fun _ => .error .other

/-- The context file for machine `m1` exists but deletion fails. -/
def cRemoveFailWorld : World where
  files := [(pathJoin "/onefuzz" ("reboot_context_" ++ "m1" ++ ".json"), [7])]
  readFail := fun _ => none
  writeFail := fun _ => none
  removeFail := fun _ => some .other
  dirEntries := fun _ => .error .other

/-- The context file for machine `m1` holds the bytes of `not json`. -/
def cCorruptWorld : World where
  files := [(pathJoin "/onefuzz" ("reboot_context_" ++ "m1" ++ ".json"),
    utf8Encode "not json")]
  readFail := fun _ => none
  writeFail := fun _ => none
  removeFail := fun _ => none
  dirEntries := fun _ => .error .other

/-- The failure file for machine `m1` holds bytes that are not valid
UTF-8. -/
def cFailFileWorld : World where
  files := [(pathJoin "/onefuzz" ("onefuzz-agent-failure-" ++ "m1" ++ ".txt"),
    [0xff, 0x41])]
  readFail := fun _ => none
  writeFail := fun _ => none
  removeFail := fun _ => none
  dirEntries := fun _ => .error .other

/-- A serde instance whose serialisation always fails. -/
def cBadSerde : Serde Nat where
  to_vec _ := .error "unsupported payload"
  from_slice _ := .error "invalid JSON"

/-- C1 witness: concrete round trip for machine `m1` on an empty root. -/
theorem save_load_roundtrip_witness :
    ∃ w1 w2,
      save_context cSerde cEnv "m1" (⟨7⟩ : RebootContext Nat) cEmptyWorld =
        (.ok (), w1) ∧
      load_context cSerde cEnv "m1" w1 = (.ok (some ⟨7⟩), w2) ∧
      w2.lookup (pathJoin "/onefuzz" ("reboot_context_" ++ "m1" ++ ".json")) =
        none ∧
      load_context cSerde cEnv "m1" w2 = (.ok none, w2) :=
  save_load_roundtrip cSerde cEnv "m1" "/onefuzz" _ ⟨7⟩ cEmptyWorld [7]
    rfl rfl rfl rfl rfl rfl rfl

/-- C2 witness: the context file holds `not json`; loading fails with a
serialization error and the file stays. -/
theorem load_context_parse_failure_witness :
    load_context cSerde cEnv "m1" cCorruptWorld =
      (.error (.serde "invalid JSON"), cCorruptWorld) ∧
    (load_context cSerde cEnv "m1" cCorruptWorld).2.lookup
        (pathJoin "/onefuzz" ("reboot_context_" ++ "m1" ++ ".json")) =
      some (utf8Encode "not json") :=
  load_context_parse_failure cSerde cEnv "m1" "/onefuzz" _ "invalid JSON"
    cCorruptWorld (utf8Encode "not json") rfl rfl rfl rfl rfl

/-- C3 witness: deletion of the parsed context file fails; the parsed
value is not returned. -/
theorem load_context_remove_failure_witness :
    load_context cSerde cEnv "m1" cRemoveFailWorld =
      (.error (.context ("unable to remove reboot context: " ++
        pathJoin "/onefuzz" ("reboot_context_" ++ "m1" ++ ".json"))
        (.ioErr .other)), cRemoveFailWorld) ∧
    ∀ v : Option (RebootContext Nat),
      (load_context cSerde cEnv "m1" cRemoveFailWorld).1 ≠ .ok v :=
  load_context_remove_failure cSerde cEnv "m1" "/onefuzz" _ cRemoveFailWorld
    [7] ⟨7⟩ .other rfl rfl rfl rfl rfl rfl

/-- C4 witness: cold start on an empty root returns `none`. -/
theorem load_context_cold_start_witness :
    load_context cSerde cEnv "m1" cEmptyWorld = (.ok none, cEmptyWorld) :=
  load_context_cold_start cSerde cEnv "m1" "/onefuzz" _ cEmptyWorld
    rfl rfl rfl rfl

/-- C10 witness: a failing serialisation leaves the world unchanged. -/
theorem save_context_serialize_failure_witness :
    save_context cBadSerde cEnv "m1" (⟨7⟩ : RebootContext Nat) cEmptyWorld =
      (.error (.serde "unsupported payload"), cEmptyWorld) :=
  save_context_serialize_failure cBadSerde cEnv "m1" "/onefuzz"
    "unsupported payload" ⟨7⟩ cEmptyWorld rfl rfl

/-- C7 witness: a file of invalid UTF-8 is decoded lossily; a missing or
unreadable file gives a path-annotated error. -/
theorem read_failure_lossy_witness :
    read_failure cEnv "m1" cFailFileWorld =
      .ok (String_from_utf8_lossy [0xff, 0x41]) ∧
    read_failure cEnv "m1" cEmptyWorld =
      .error (.context ("unable to read file: " ++
        pathJoin "/onefuzz" ("onefuzz-agent-failure-" ++ "m1" ++ ".txt"))
        (.ioErr .notFound)) ∧
    read_failure cEnv "m1" cUnreadableWorld =
      .error (.context ("unable to read file: " ++
        pathJoin "/onefuzz" ("onefuzz-agent-failure-" ++ "m1" ++ ".txt"))
        (.ioErr .permissionDenied)) :=
  ⟨(read_failure_lossy cEnv "m1" "/onefuzz" _ cFailFileWorld rfl rfl).1
      [0xff, 0x41] rfl rfl,
   (read_failure_lossy cEnv "m1" "/onefuzz" _ cEmptyWorld rfl rfl).2.1 rfl rfl,
   (read_failure_lossy cEnv "m1" "/onefuzz" _ cUnreadableWorld rfl rfl).2.2
      .permissionDenied rfl⟩

/-- C8 witness: save a `boom`/`disk full` error for `m1`, read it back,
then overwrite with a second error. -/
theorem save_then_read_failure_witness :
    ∃ w1 w2,
      save_failure cEnv (.context "boom" (.msg "disk full")) "m1" cEmptyWorld =
        (.ok (), w1) ∧
      read_failure cEnv "m1" w1 =
        .ok (Err.render (.context "boom" (.msg "disk full"))) ∧
      save_failure cEnv (.msg "second") "m1" w1 = (.ok (), w2) ∧
      read_failure cEnv "m1" w2 = .ok (Err.render (.msg "second")) ∧
      w2.lookup (pathJoin "/onefuzz" ("onefuzz-agent-failure-" ++ "m1" ++ ".txt")) =
        some (utf8Encode (Err.render (.msg "second"))) ∧
      w2.files =
        (save_failure cEnv (.msg "second") "m1" cEmptyWorld).2.files :=
  save_then_read_failure cEnv (.context "boom" (.msg "disk full"))
    (.msg "second") "m1" "/onefuzz" _ cEmptyWorld rfl rfl rfl rfl

/-- C5 witness (amended statement): one log file `hello` under `/logs`. -/
theorem read_logs_format_witness :
    read_logs cEnv cLogWorld = .ok (String.intercalate "\n\n"
      (["/logs/a.log"].flatMap fun p =>
        [p, String_from_utf8_lossy (utf8Encode "hello")])) :=
  read_logs_format cEnv cLogWorld "/logs" ["/logs/a.log"]
    (fun _ => utf8Encode "hello") rfl rfl (by decide)

/-- C6 witness (amended statement): each annotated error at a concrete
world, and the bare read error in `load_context`. -/
theorem io_error_path_contexts_witness :
    (∃ er, save_failure cEnv (.msg "boom") "m1" cWriteFailWorld =
        (.error er, cWriteFailWorld) ∧
      er.annotatedWith
        (pathJoin "/onefuzz" ("onefuzz-agent-failure-" ++ "m1" ++ ".txt"))) ∧
    (∃ er, read_failure cEnv "m1" cUnreadableWorld = .error er ∧
      er.annotatedWith
        (pathJoin "/onefuzz" ("onefuzz-agent-failure-" ++ "m1" ++ ".txt"))) ∧
    (∃ er, read_logs cEnv cUnreadableWorld = .error er ∧
      er.annotatedWith "/logs") ∧
    (∃ er, read_logs_entries cUnreadableWorld [.ok "/logs/a.log"] = .error er ∧
      er.annotatedWith "/logs/a.log") ∧
    (∃ er, save_context cSerde cEnv "m1" ⟨7⟩ cWriteFailWorld =
        (.error er, cWriteFailWorld) ∧
      er.annotatedWith
        (pathJoin "/onefuzz" ("reboot_context_" ++ "m1" ++ ".json"))) ∧
    (∃ er, load_context cSerde cEnv "m1" cRemoveFailWorld =
        (.error er, cRemoveFailWorld) ∧
      er.annotatedWith
        (pathJoin "/onefuzz" ("reboot_context_" ++ "m1" ++ ".json"))) ∧
    (load_context cSerde cEnv "m1" cUnreadableWorld =
        (.error (.ioErr .permissionDenied), cUnreadableWorld) ∧
      ¬ (Err.ioErr .permissionDenied).annotatedWith
        (pathJoin "/onefuzz" ("reboot_context_" ++ "m1" ++ ".json"))) :=
  ⟨(io_error_path_contexts cSerde cEnv cWriteFailWorld "/onefuzz" "/logs"
      "m1" _ _ rfl rfl rfl rfl).1 (.msg "boom") .other rfl,
   (io_error_path_contexts cSerde cEnv cUnreadableWorld "/onefuzz" "/logs"
      "m1" _ _ rfl rfl rfl rfl).2.1 .permissionDenied rfl,
   (io_error_path_contexts cSerde cEnv cUnreadableWorld "/onefuzz" "/logs"
      "m1" _ _ rfl rfl rfl rfl).2.2.1 .other rfl,
   (io_error_path_contexts cSerde cEnv cUnreadableWorld "/onefuzz" "/logs"
      "m1" _ _ rfl rfl rfl rfl).2.2.2.1 "/logs/a.log" .permissionDenied [] rfl,
   (io_error_path_contexts cSerde cEnv cWriteFailWorld "/onefuzz" "/logs"
      "m1" _ _ rfl rfl rfl rfl).2.2.2.2.1 ⟨7⟩ [7] .other rfl rfl,
   (io_error_path_contexts cSerde cEnv cRemoveFailWorld "/onefuzz" "/logs"
      "m1" _ _ rfl rfl rfl rfl).2.2.2.2.2.1 [7] ⟨7⟩ .other rfl rfl rfl rfl,
   (io_error_path_contexts cSerde cEnv cUnreadableWorld "/onefuzz" "/logs"
      "m1" _ _ rfl rfl rfl rfl).2.2.2.2.2.2 .permissionDenied rfl
      (by decide)⟩
